import Mathlib

/-!
Verification development for the explanatory-video generator (`app.py`).

The file shallowly embeds the orchestration pipeline:
  * `extract_class_name` — the regex-based scene entry-point extraction
    (`re.search(r"class\s+(\w+)\s*\(\s*\w*Scene\s*\):", code)`);
  * `create_video_from_code` — the Manim subprocess wrapper with its
    temporary file, timeout and cleanup behaviour;
  * `generate_video` — the per-chapter generate / render / fix / retry loop
    and the final moviepy assembly step.

External collaborators (the LLM agents, the Manim subprocess, the file
system and moviepy) are modelled as oracles supplied through an `Env`
record; Python exceptions are modelled with `Except`.
-/

instance instDecEqExcept {ε α : Type} [DecidableEq ε] [DecidableEq α] :
    DecidableEq (Except ε α) := fun a b => by
  cases a <;> cases b
  case error.error e f => exact decidable_of_iff (e = f) (by simp)
  case ok.ok x y => exact decidable_of_iff (x = y) (by simp)
  all_goals exact isFalse (by simp)

namespace App

/-- Python's `\s` character class, restricted to its ASCII members
(the generated code handled by the program is ASCII). -/
def isWs (c : Char) : Bool :=
  c = ' ' || c = '\t' || c = '\n' || c = '\r' || c = '\x0b' || c = '\x0c'

/-- Python's `\w` character class, restricted to its ASCII members:
letters, digits and underscore. -/
def isWordChar (c : Char) : Bool :=
  c.isAlphanum || c = '_'

/-- Drop the literal `lit` from the front of `l`; `none` when `l` does not
start with `lit`. -/
def dropLit : List Char → List Char → Option (List Char)
  | [], l => some l
  | _ :: _, [] => none
  | p :: ps, c :: cs => if c = p then dropLit ps cs else none

/-- `true` when the word `w` ends with the literal `"Scene"`; this is what
the sub-pattern `\w*Scene` amounts to once `\w*` has consumed the rest of
the word run (the characters of `Scene` are themselves word characters, so
the regex can only succeed when the whole word run ends in `Scene`). -/
def endsWithScene (w : List Char) : Bool :=
  (dropLit "Scene".data.reverse w.reverse).isSome

/-- Attempt to match the pattern `class\s+(\w+)\s*\(\s*\w*Scene\s*\):`
anchored at the start of `l`, returning the captured group `(\w+)`.

The pattern's character classes are pairwise disjoint at every boundary
(`\s` vs `\w` vs the literal symbols), so Python's backtracking search is
equivalent to this deterministic maximal-munch scan. -/
def matchAt (l : List Char) : Option String :=
  match dropLit "class".data l with
  | none => none
  | some r1 =>
    let ws1 := r1.takeWhile isWs
    let r2 := r1.dropWhile isWs
    if ws1.isEmpty then none
    else
      let name := r2.takeWhile isWordChar
      let r3 := r2.dropWhile isWordChar
      if name.isEmpty then none
      else
        match r3.dropWhile isWs with
        | '(' :: r5 =>
          let r6 := r5.dropWhile isWs
          let base := r6.takeWhile isWordChar
          let r7 := r6.dropWhile isWordChar
          if endsWithScene base then
            match r7.dropWhile isWs with
            | ')' :: ':' :: _ => some (String.mk name)
            | _ => none
          else none
        | _ => none

/-- `re.search`: try the pattern at every position, leftmost match wins. -/
def searchDecl : List Char → Option String
  | [] => none
  | c :: cs =>
    match matchAt (c :: cs) with
    | some n => some n
    | none => searchDecl cs

/-- `extract_class_name` (app.py lines 88-93): regex-search the source for a
scene class declaration; raises `ValueError` (modelled as `Except.error`)
when no match is found. -/
def extract_class_name (code : String) : Except String String :=
  match searchDecl code.data with
  | some n => Except.ok n
  | none => Except.error "Could not extract class name from Manim code."

/-- `os.path.join` (POSIX semantics) as used on app.py line 130. -/
def os_path_join (a b : String) : String :=
  if b.data.head? = some '/' then b
  else if a.data = [] || a.data.getLast? = some '/' then a ++ b
  else a ++ "/" ++ b

/-- The fixed wall-clock timeout passed to `process.communicate` on
app.py line 109. -/
def renderTimeout : Nat := 60

/-- Behaviour of the external `manim` subprocess for one invocation:
it either runs to completion with an exit code and captured streams,
exceeds the timeout, is absent from PATH (`FileNotFoundError` from
`Popen`), or raises some other exception. -/
inductive ProcOutcome : Type
  | completed (returncode : Int) (stdout : String) (stderr : String)
  | timeout
  | fileNotFound
  | otherError (msg : String)
deriving DecidableEq

/-- The Python exceptions that flow through the pipeline. -/
inductive PyError : Type
  | calledProcess (cmd : List String) (returncode : Int) (stderr : String)
  | timeoutExpired
  | fileNotFound (msg : String)
  | valueError (msg : String)
  | agentError (msg : String)
  | otherError (msg : String)
deriving DecidableEq

/-- `str(e)` as passed to the code fixer on app.py line 153 (the exact
rendering of each exception class is abbreviated; only its dependence on
the exception's payload matters to the orchestration). -/
def errMsg : PyError → String
  | .calledProcess cmd rc _ =>
      "Command " ++ String.intercalate " " cmd ++
        " returned non-zero exit status " ++ toString rc ++ "."
  | .timeoutExpired => "Command timed out after 60 seconds"
  | .fileNotFound m => m
  | .valueError m => m
  | .agentError m => m
  | .otherError m => m

/-- Observable file-system / process effects of one
`create_video_from_code` call. -/
structure FsTrace : Type where
  tempCreated : Nat
  tempDeleted : Nat
  tempFinallyExists : Bool
  procKilled : Bool
deriving DecidableEq

/-- The `finally` block of app.py lines 125-127: delete the temporary file
when it still exists. -/
def runFinally (tr : FsTrace) : FsTrace :=
  if tr.tempFinallyExists then
    { tr with tempDeleted := tr.tempDeleted + 1, tempFinallyExists := false }
  else tr

/-- `create_video_from_code` (app.py lines 95-131).

`proc` is the behaviour of the Manim subprocess for this call and
`tempName` the random name `tempfile.NamedTemporaryFile` chose.  The
returned `FsTrace` records the temporary-file and process effects; the
`Except` value is the function's Python result (`Except.error` = raised
exception).  Note that `extract_class_name` runs only after the
`try/finally` has completed, so the temporary file is already gone on
that path too. -/
def create_video_from_code (proc : ProcOutcome) (tempName : String)
    (code : String) (_chapter_num : Nat) : Except PyError String × FsTrace :=
  let tr0 : FsTrace :=
    { tempCreated := 1, tempDeleted := 0, tempFinallyExists := true,
      procKilled := false }
  let command : List String := ["manim", tempName, "-ql", "--disable_caching"]
  match proc with
  | .timeout =>
      (Except.error PyError.timeoutExpired,
       runFinally { tr0 with procKilled := true })
  | .fileNotFound =>
      (Except.error (PyError.fileNotFound "Manim is not installed or not in PATH."),
       runFinally tr0)
  | .otherError m =>
      (Except.error (PyError.otherError m), runFinally tr0)
  | .completed rc _ stderr =>
      if rc ≠ 0 then
        (Except.error (PyError.calledProcess command rc stderr), runFinally tr0)
      else
        let tr1 := runFinally tr0
        match extract_class_name code with
        | Except.error m => (Except.error (PyError.valueError m), tr1)
        | Except.ok class_name =>
            (Except.ok (os_path_join "./media/videos/temp/480p15/"
              (class_name ++ ".mp4")), tr1)

/-- `ChapterDescription` (app.py lines 31-35). -/
structure ChapterDescription : Type where
  title : String
  explanation : String
deriving DecidableEq

/-- `VideoOutline` (app.py lines 37-39).  Note: the `chapters` field
carries no length constraint in the source. -/
structure VideoOutline : Type where
  title : String
  chapters : List ChapterDescription
deriving DecidableEq

/-- The external world for one `generate_video` run.  LLM calls and
file-system probes are oracles; render-time oracles are indexed by
chapter index and attempt index, which enumerates the sequential calls
the loop makes (this lets a single `Env` express stateful stubs such as
"fails once then succeeds"). -/
structure Env : Type where
  /-- `outline_agent.run_sync concept` (line 85): parsed result or raised error. -/
  outline : Except String VideoOutline
  /-- `manim_agent.run_sync` (line 75) for the chapter at this index. -/
  genCode : Nat → ChapterDescription → Except String String
  /-- `code_fixer_agent.run_sync` (line 80) on (error text, current code). -/
  fix : String → String → Except String String
  /-- Manim subprocess behaviour per (chapter index, attempt index). -/
  proc : Nat → Nat → ProcOutcome
  /-- the random temporary-file name per (chapter index, attempt index). -/
  tempName : Nat → Nat → String
  /-- `os.path.exists video_file` (line 145) per (chapter index, attempt index). -/
  existsAfterRender : Nat → Nat → Bool
  /-- `os.path.exists vf` at assembly time (line 162). -/
  existsAtAssembly : String → Bool
  /-- `VideoFileClip vf` (line 162): succeeds or raises. -/
  openClip : String → Except String Unit
  /-- the `concatenate_videoclips` + `write_videofile` step (lines 165-166). -/
  write : Except String Unit

/-- `generate_video_outline` (app.py lines 83-86): forwards the agent's
result unchanged; a raised backend error propagates. -/
def generate_video_outline (outline : Except String VideoOutline) :
    Except PyError VideoOutline :=
  match outline with
  | Except.error m => Except.error (PyError.agentError m)
  | Except.ok o => Except.ok o

/-- `generate_manim_code` (app.py lines 73-76) for the chapter at index
`i`: forwards the agent's result; a raised backend error propagates. -/
def generate_manim_code (env : Env) (i : Nat) (chapter : ChapterDescription) :
    Except PyError String :=
  match env.genCode i chapter with
  | Except.error m => Except.error (PyError.agentError m)
  | Except.ok code => Except.ok code

/-- `fix_manim_code` (app.py lines 78-81): forwards the agent's result;
a raised backend error propagates. -/
def fix_manim_code (env : Env) (error : String) (code : String) :
    Except PyError String :=
  match env.fix error code with
  | Except.error m => Except.error (PyError.agentError m)
  | Except.ok code2 => Except.ok code2

/-- One render attempt of the loop body (app.py lines 144-149): call
`create_video_from_code`, then check `os.path.exists`; a missing file is
raised as `FileNotFoundError "Video file not created."` and any raised
exception is the attempt's failure. -/
def attemptResult (env : Env) (ci attempt : Nat) (code : String) :
    Except PyError String :=
  match (create_video_from_code (env.proc ci attempt) (env.tempName ci attempt)
          code (ci + 1)).1 with
  | Except.ok path =>
      if env.existsAfterRender ci attempt then Except.ok path
      else Except.error (PyError.fileNotFound "Video file not created.")
  | Except.error e => Except.error e

/-- Instrumentation for one chapter's `while` loop: number of
`create_video_from_code` calls, number of `fix_manim_code` calls, and the
(error text, code) argument pairs the fixer received. -/
structure ChapterTrace : Type where
  renders : Nat
  fixes : Nat
  fixArgs : List (String × String)
deriving DecidableEq

/-- The empty instrumentation record. -/
def ChapterTrace.init : ChapterTrace := ⟨0, 0, []⟩

/-- The chapter retry loop (app.py lines 139-154):
`while attempts < 2 and not success`.  `fuel` is `2 - attempts` and makes
the recursion structural.  The first component is the loop's Python
outcome: `Except.ok (some path)` on success, `Except.ok none` when the
attempt budget is exhausted (the chapter is then skipped), and
`Except.error` when `fix_manim_code` raises — that exception escapes the
loop (and `generate_video`). -/
def runChapterLoop (env : Env) (ci : Nat) :
    Nat → Nat → String → ChapterTrace →
    Except PyError (Option String) × ChapterTrace
  | 0, _, _, tr => (Except.ok none, tr)
  | fuel + 1, attempts, code, tr =>
    if attempts < 2 then
      let tr := { tr with renders := tr.renders + 1 }
      match attemptResult env ci attempts code with
      | Except.ok path => (Except.ok (some path), tr)
      | Except.error e =>
        if attempts = 0 then
          let tr := { tr with fixes := tr.fixes + 1,
                              fixArgs := tr.fixArgs ++ [(errMsg e, code)] }
          match fix_manim_code env (errMsg e) code with
          | Except.error e2 => (Except.error e2, tr)
          | Except.ok newCode =>
              runChapterLoop env ci fuel (attempts + 1) newCode tr
        else runChapterLoop env ci fuel (attempts + 1) code tr
    else (Except.ok none, tr)

/-- One chapter of the `for` loop (app.py lines 137-158): generate the
chapter's code (an error here escapes), then run the retry loop. -/
def chapterOutcome (env : Env) (i : Nat) (chapter : ChapterDescription) :
    Except PyError (Option String) × ChapterTrace :=
  match generate_manim_code env i chapter with
  | Except.error e => (Except.error e, ChapterTrace.init)
  | Except.ok code => runChapterLoop env i 2 0 code ChapterTrace.init

/-- The clip path one chapter contributes to the final assembly list:
`some path` exactly when the chapter's retry loop succeeded. -/
def chapterClip (env : Env) (i : Nat) (c : ChapterDescription) : Option String :=
  match (chapterOutcome env i c).1 with
  | Except.ok (some p) => some p
  | _ => none

/-- The whole `for` loop: process chapters sequentially starting at index
`i`, collecting successful clip paths in chapter order and the per-chapter
instrumentation; the first escaping exception aborts the run. -/
def processChapters (env : Env) :
    List ChapterDescription → Nat →
    Except PyError (List String × List ChapterTrace)
  | [], _ => Except.ok ([], [])
  | c :: rest, i =>
    match chapterOutcome env i c with
    | (Except.error e, _) => Except.error e
    | (Except.ok res, tr) =>
      match processChapters env rest (i + 1) with
      | Except.error e => Except.error e
      | Except.ok (files, trs) =>
          Except.ok ((match res with
                      | some p => p :: files
                      | none => files), tr :: trs)

/-- The user-facing message `generate_video` emits at the end of the run
(`st.success` / `st.warning` / `st.error`, app.py lines 170-178). -/
inductive Msg : Type
  | successMsg
  | noClips
  | combineError (m : String)
  | noChapters
deriving DecidableEq

/-- Observable effects of the assembly step. -/
structure AsmTrace : Type where
  /-- clips opened by `VideoFileClip`, in opening order. -/
  opened : List String
  /-- clips whose `close()` ran, in closing order. -/
  closed : List String
  /-- whether `final.close()` ran. -/
  finalClosed : Bool
  /-- whether `write_videofile` completed. -/
  wrote : Bool
deriving DecidableEq

/-- The list-comprehension `[VideoFileClip vf for vf in files if exists vf]`
restricted to paths that pass the existence filter: returns the clips list
on success, or the raised error together with the clips opened before it. -/
def openClips (openClip : String → Except String Unit) :
    List String → Except String (List String) × List String
  | [] => (Except.ok [], [])
  | p :: ps =>
    match openClip p with
    | Except.error m => (Except.error m, [])
    | Except.ok _ =>
      match openClips openClip ps with
      | (Except.error m, opened) => (Except.error m, p :: opened)
      | (Except.ok l, opened) => (Except.ok (p :: l), p :: opened)

/-- The assembly block of `generate_video` (app.py lines 160-179), reached
with the collected `video_files`.  Models: the existence re-filter, the
clip opening, the concatenate-and-write step (oracle `write`), the
success-path closes, and the `except` handler that converts any raised
exception into an error message (the run then returns `None`). -/
def assembleStep (env : Env) (video_files : List String) :
    Option String × AsmTrace × Msg :=
  match video_files with
  | [] => (none, ⟨[], [], false, false⟩, Msg.noChapters)
  | _ :: _ =>
    let cand := video_files.filter env.existsAtAssembly
    match openClips env.openClip cand with
    | (Except.error m, opened) => (none, ⟨opened, [], false, false⟩, Msg.combineError m)
    | (Except.ok clips, opened) =>
      match clips with
      | [] => (none, ⟨opened, [], false, false⟩, Msg.noClips)
      | _ :: _ =>
        match env.write with
        | Except.error m =>
            (none, ⟨opened, [], false, false⟩, Msg.combineError m)
        | Except.ok _ =>
            (some "final_video.mp4", ⟨opened, clips, true, true⟩, Msg.successMsg)

/-- Full-run instrumentation. -/
structure RunTrace : Type where
  videoFiles : List String
  chapterTraces : List ChapterTrace
  asm : AsmTrace
  message : Msg
deriving DecidableEq

/-- `generate_video` (app.py lines 133-179).  The first component is the
Python outcome: `Except.ok (some path)` when a final video was produced,
`Except.ok none` when the run completed with nothing to return, and
`Except.error` when an exception escaped (outline failure, code-generation
failure, or code-fix failure). -/
def generate_video (env : Env) : Except PyError (Option String) × RunTrace :=
  let emptyAsm : AsmTrace := ⟨[], [], false, false⟩
  match generate_video_outline env.outline with
  | Except.error e => (Except.error e, ⟨[], [], emptyAsm, Msg.noChapters⟩)
  | Except.ok outline =>
    match processChapters env outline.chapters 0 with
    | Except.error e => (Except.error e, ⟨[], [], emptyAsm, Msg.noChapters⟩)
    | Except.ok (video_files, trs) =>
      match assembleStep env video_files with
      | (res, asm, msg) => (Except.ok res, ⟨video_files, trs, asm, msg⟩)

/-! ### Declarative reading of the entry-point pattern -/

/-- Every character of `l` is whitespace. -/
def AllWs (l : List Char) : Prop := ∀ c ∈ l, isWs c = true

/-- Every character of `l` is a word character. -/
def AllWord (l : List Char) : Prop := ∀ c ∈ l, isWordChar c = true

/-- Declarative reading of the entry-point pattern anchored at the start
of `l`: a `class` keyword, whitespace, the captured identifier, an opening
parenthesis, a base identifier ending in `Scene`, and `):`. -/
def DeclAt (name : String) (l : List Char) : Prop :=
  ∃ ws1 ws2 ws3 base ws4 rest,
    l = "class".data ++ ws1 ++ name.data ++ ws2 ++ ['('] ++ ws3 ++ base ++
        "Scene".data ++ ws4 ++ [')', ':'] ++ rest ∧
    ws1 ≠ [] ∧ AllWs ws1 ∧ AllWs ws2 ∧ AllWs ws3 ∧ AllWs ws4 ∧
    name.data ≠ [] ∧ AllWord name.data ∧ AllWord base

/-- `code` contains a scene class declaration somewhere. -/
def HasDecl (code : String) : Prop :=
  ∃ i name, DeclAt name (code.data.drop i)

/-! ### Concrete environments used as witnesses and counterexamples -/

/-- A one-chapter outline. -/
def outline1 : VideoOutline := ⟨"t", [⟨"c1", "e1"⟩]⟩

/-- A fully successful environment: outline, generation, render, files,
assembly all succeed. -/
def envOK : Env where
  outline := Except.ok outline1
  genCode := fun _ _ => Except.ok "class FooScene(Scene):"
  fix := fun _ c => Except.ok c
  proc := fun _ _ => ProcOutcome.completed 0 "" ""
  tempName := fun _ _ => "/tmp/tmp123.py"
  existsAfterRender := fun _ _ => true
  existsAtAssembly := fun _ => true
  openClip := fun _ => Except.ok ()
  write := Except.ok ()

/-- Like `envOK` but every Manim subprocess call times out. -/
def envTimeoutAll : Env := { envOK with proc := fun _ _ => ProcOutcome.timeout }

/-- Like `envOK` but the scene-code generation backend fails. -/
def envGenFail : Env :=
  { envOK with genCode := fun _ _ => Except.error "backend down" }

/-- Like `envOK` but renders fail and the code-fix backend also fails. -/
def envFixFail : Env :=
  { envTimeoutAll with fix := fun _ _ => Except.error "fixer down" }

/-- An outline with zero chapters. -/
def zeroOutline : VideoOutline := ⟨"t", []⟩

/-- Like `envOK` but the outline backend returns zero chapters. -/
def envZero : Env := { envOK with outline := Except.ok zeroOutline }

/-- Like `envOK` but the generated code contains no scene declaration. -/
def envNoDecl : Env := { envOK with genCode := fun _ _ => Except.ok "print(1)" }

/-- Like `envOK` but the concatenate-and-write step fails. -/
def envWriteFail : Env := { envOK with write := Except.error "disk full" }

/-- Three chapters named A, B, C. -/
def chaptersABC : List ChapterDescription := [⟨"A", "a"⟩, ⟨"B", "b"⟩, ⟨"C", "c"⟩]

/-- Three chapters A, B, C where B's render always fails and A, C succeed. -/
def envABC : Env :=
  { envOK with
    outline := Except.ok ⟨"t", chaptersABC⟩
    genCode := fun i _ =>
      Except.ok (if i = 0 then "class AScene(Scene):"
                 else if i = 1 then "class BScene(Scene):"
                 else "class CScene(Scene):")
    proc := fun ci _ =>
      if ci = 1 then ProcOutcome.timeout
      else ProcOutcome.completed 0 "" "" }

/-! ### Character-class and scanning lemmas -/

theorem ws_not_word {c : Char} (h : isWs c = true) : isWordChar c = false := by
  simp only [isWs, Bool.or_eq_true, decide_eq_true_eq] at h
  rcases h with ((((h | h) | h) | h) | h) | h <;> subst h <;> decide

theorem word_not_ws {c : Char} (h : isWordChar c = true) : isWs c = false := by
  cases hw : isWs c
  · rfl
  · rw [ws_not_word hw] at h
    exact absurd h (by simp)

theorem dropLit_append : ∀ (xs ys : List Char), dropLit xs (xs ++ ys) = some ys
  | [], _ => rfl
  | x :: xs, ys => by simp [dropLit, dropLit_append xs ys]

theorem dropLit_eq_some :
    ∀ (xs l r : List Char), dropLit xs l = some r → l = xs ++ r
  | [], l, r, h => by simp [dropLit] at h; simp [h]
  | _ :: _, [], _, h => by simp [dropLit] at h
  | x :: xs, c :: cs, r, h => by
    by_cases hc : c = x
    · subst hc
      simp only [dropLit, if_pos rfl] at h
      simpa using dropLit_eq_some xs cs r h
    · simp [dropLit, hc] at h

theorem spanWhile_append (p : Char → Bool) :
    ∀ (xs ys : List Char), (∀ a ∈ xs, p a = true) →
      (∀ a, ys.head? = some a → p a = false) →
      (xs ++ ys).takeWhile p = xs ∧ (xs ++ ys).dropWhile p = ys
  | [], ys, _, h2 => by
    cases ys with
    | nil => simp
    | cons a t =>
      have ha : p a = false := h2 a rfl
      simp [List.takeWhile_cons, List.dropWhile_cons, ha]
  | x :: xs, ys, h1, h2 => by
    have hx : p x = true := h1 x (by simp)
    have ih := spanWhile_append p xs ys (fun a ha => h1 a (by simp [ha])) h2
    simp [List.takeWhile_cons, List.dropWhile_cons, hx, ih.1, ih.2]

theorem dropWhile_head_false (p : Char → Bool) :
    ∀ (l : List Char) (a : Char), (l.dropWhile p).head? = some a → p a = false
  | [], a, h => by simp at h
  | x :: xs, a, h => by
    by_cases hp : p x = true
    · rw [List.dropWhile_cons, if_pos hp] at h
      exact dropWhile_head_false p xs a h
    · rw [List.dropWhile_cons, if_neg hp] at h
      simp only [List.head?_cons, Option.some.injEq] at h
      subst h
      simpa using hp

theorem endsWithScene_append (b : List Char) :
    endsWithScene (b ++ "Scene".data) = true := by
  unfold endsWithScene
  rw [List.reverse_append, dropLit_append]
  rfl

theorem endsWithScene_eq_append {w : List Char} (h : endsWithScene w = true) :
    ∃ b, w = b ++ "Scene".data := by
  unfold endsWithScene at h
  cases hd : dropLit "Scene".data.reverse w.reverse with
  | none => rw [hd] at h; simp at h
  | some r =>
    have hw := dropLit_eq_some _ _ _ hd
    refine ⟨r.reverse, ?_⟩
    have h2 : w.reverse.reverse = ("Scene".data.reverse ++ r).reverse := by
      rw [← hw]
    simpa [List.reverse_append, List.reverse_reverse] using h2

/-- The characters of the literal `Scene` are word characters. -/
theorem allWord_scene : AllWord "Scene".data := by
  intro c hc
  simp only [show "Scene".data = ['S', 'c', 'e', 'n', 'e'] from rfl,
    List.mem_cons, List.not_mem_nil, or_false] at hc
  rcases hc with h | h | h | h | h <;> subst h <;> decide

/-- Completeness of the deterministic scan: a declarative occurrence of the
pattern anchored at `l` is found by `matchAt`, capturing exactly the
declared name. -/
theorem matchAt_of_declAt {name : String} {l : List Char} (h : DeclAt name l) :
    matchAt l = some name := by
  obtain ⟨ws1, ws2, ws3, base, ws4, rest, hl, hws1ne, hws1, hws2, hws3, hws4,
    hnne, hnw, hbw⟩ := h
  obtain ⟨n0, nt, hn⟩ := List.exists_cons_of_ne_nil hnne
  subst hl
  have hassoc : "class".data ++ ws1 ++ name.data ++ ws2 ++ ['('] ++ ws3 ++ base ++
      "Scene".data ++ ws4 ++ [')', ':'] ++ rest =
      "class".data ++ (ws1 ++ (name.data ++ (ws2 ++ ('(' :: (ws3 ++ ((base ++
      "Scene".data) ++ (ws4 ++ (')' :: ':' :: rest)))))))) := by
    simp [List.append_assoc]
  have h1 := spanWhile_append isWs ws1
      (name.data ++ (ws2 ++ ('(' :: (ws3 ++ ((base ++ "Scene".data) ++
        (ws4 ++ (')' :: ':' :: rest))))))) hws1
      (by intro a ha; rw [hn] at ha; simp only [List.cons_append,
        List.head?_cons, Option.some.injEq] at ha; subst ha
          exact word_not_ws (hnw n0 (by rw [hn]; simp)))
  have h2 := spanWhile_append isWordChar name.data
      (ws2 ++ ('(' :: (ws3 ++ ((base ++ "Scene".data) ++
        (ws4 ++ (')' :: ':' :: rest)))))) hnw
      (by intro a ha
          cases ws2 with
          | nil =>
            simp only [List.nil_append, List.head?_cons, Option.some.injEq] at ha
            subst ha; decide
          | cons v vt =>
            simp only [List.cons_append, List.head?_cons, Option.some.injEq] at ha
            subst ha; exact ws_not_word (hws2 v (by simp)))
  have h3 := spanWhile_append isWs ws2
      ('(' :: (ws3 ++ ((base ++ "Scene".data) ++ (ws4 ++ (')' :: ':' :: rest)))))
      hws2
      (by intro a ha; simp only [List.head?_cons, Option.some.injEq] at ha
          subst ha; decide)
  have h4 := spanWhile_append isWs ws3
      ((base ++ "Scene".data) ++ (ws4 ++ (')' :: ':' :: rest))) hws3
      (by intro a ha
          cases base with
          | nil =>
            simp only [List.nil_append, List.cons_append, List.head?_cons,
              Option.some.injEq] at ha
            subst ha; decide
          | cons b0 bt =>
            simp only [List.cons_append, List.head?_cons, Option.some.injEq] at ha
            subst ha; exact word_not_ws (hbw b0 (by simp)))
  have hrun : AllWord (base ++ "Scene".data) := by
    intro c hc
    rcases List.mem_append.mp hc with hc | hc
    · exact hbw c hc
    · exact allWord_scene c hc
  have h5 := spanWhile_append isWordChar (base ++ "Scene".data)
      (ws4 ++ (')' :: ':' :: rest)) hrun
      (by intro a ha
          cases ws4 with
          | nil =>
            simp only [List.nil_append, List.head?_cons, Option.some.injEq] at ha
            subst ha; decide
          | cons v vt =>
            simp only [List.cons_append, List.head?_cons, Option.some.injEq] at ha
            subst ha; exact ws_not_word (hws4 v (by simp)))
  have h6 := spanWhile_append isWs ws4 (')' :: ':' :: rest) hws4
      (by intro a ha; simp only [List.head?_cons, Option.some.injEq] at ha
          subst ha; decide)
  have hE1 : ws1.isEmpty = false := by
    cases ws1 with
    | nil => exact absurd rfl hws1ne
    | cons _ _ => rfl
  have hEn : name.data.isEmpty = false := by rw [hn]; rfl
  unfold matchAt
  rw [hassoc, dropLit_append]
  simp only [h1.1, h1.2, hE1, Bool.false_eq_true, if_false, h2.1, h2.2, hEn,
    h3.2, h4.2, h5.1, h5.2, endsWithScene_append, if_true, h6.2]
  rw [show (['S', 'c', 'e', 'n', 'e'] : List Char) = "Scene".data from rfl,
    endsWithScene_append, if_pos rfl]

/-- A non-empty `takeWhile` result, stated from the falsity of `isEmpty`. -/
theorem ne_nil_of_not_isEmpty {l : List Char} (h : ¬ l.isEmpty = true) :
    l ≠ [] := by
  intro hnil
  rw [hnil] at h
  exact h rfl

/-- Soundness of the deterministic scan: when `matchAt` succeeds, the
pattern declaratively occurs at the start of `l` with the captured name. -/
theorem declAt_of_matchAt {l : List Char} {name : String}
    (h : matchAt l = some name) : DeclAt name l := by
  unfold matchAt at h
  cases hd : dropLit "class".data l with
  | none => rw [hd] at h; simp at h
  | some r1 =>
    rw [hd] at h
    simp only at h
    have hl1 : l = "class".data ++ r1 := dropLit_eq_some _ _ _ hd
    split at h
    · simp at h
    · split at h
      · simp at h
      · split at h
        · split at h
          · split at h
            · rename_i hE1 hEn x1 r5 heq1 hScene x2 restT heq2
              simp only [Option.some.injEq] at h
              subst h
              obtain ⟨b, hb⟩ := endsWithScene_eq_append hScene
              set r2 := r1.dropWhile isWs with hr2
              set nm := r2.takeWhile isWordChar with hnm
              set r3 := r2.dropWhile isWordChar with hr3
              set r6 := r5.dropWhile isWs with hr6
              set r7 := r6.dropWhile isWordChar with hr7
              have e2 : r1 = r1.takeWhile isWs ++ r2 :=
                (List.takeWhile_append_dropWhile isWs r1).symm
              have e3 : r2 = nm ++ r3 :=
                (List.takeWhile_append_dropWhile isWordChar r2).symm
              have e4 : r3 = r3.takeWhile isWs ++ ('(' :: r5) := by
                conv_lhs => rw [← List.takeWhile_append_dropWhile isWs r3]
                rw [heq1]
              have e5 : r5 = r5.takeWhile isWs ++ r6 :=
                (List.takeWhile_append_dropWhile isWs r5).symm
              have e6 : r6 = (b ++ "Scene".data) ++ r7 := by
                conv_lhs => rw [← List.takeWhile_append_dropWhile isWordChar r6]
                rw [← hb]
              have e7 : r7 = r7.takeWhile isWs ++ (')' :: ':' :: restT) := by
                conv_lhs => rw [← List.takeWhile_append_dropWhile isWs r7]
                rw [heq2]
              refine ⟨r1.takeWhile isWs, r3.takeWhile isWs, r5.takeWhile isWs,
                b, r7.takeWhile isWs, restT, ?_, ?_, ?_, ?_, ?_, ?_, ?_, ?_, ?_⟩
              · rw [hl1]
                conv_lhs => rw [e2, e3, e4, e5, e6, e7]
                simp [List.append_assoc]
              · exact ne_nil_of_not_isEmpty hE1
              · exact fun c hc => List.mem_takeWhile_imp hc
              · exact fun c hc => List.mem_takeWhile_imp hc
              · exact fun c hc => List.mem_takeWhile_imp hc
              · exact fun c hc => List.mem_takeWhile_imp hc
              · exact ne_nil_of_not_isEmpty hEn
              · exact fun c hc => List.mem_takeWhile_imp hc
              · intro c hc
                have hmem : c ∈ r6.takeWhile isWordChar := by
                  rw [hb]
                  exact List.mem_append_left _ hc
                exact List.mem_takeWhile_imp hmem
            · simp at h
          · simp at h
        · simp at h

/-- The scan cannot match the empty text. -/
theorem matchAt_nil : matchAt [] = none := rfl

/-- A failed search means the pattern matches at no position. -/
theorem searchDecl_none {l : List Char} (h : searchDecl l = none) :
    ∀ i, matchAt (l.drop i) = none := by
  induction l with
  | nil => intro i; rw [List.drop_nil]; exact matchAt_nil
  | cons c cs ih =>
    intro i
    unfold searchDecl at h
    cases hm : matchAt (c :: cs) with
    | some n => rw [hm] at h; simp at h
    | none =>
      rw [hm] at h
      cases i with
      | zero => simpa using hm
      | succ j => rw [List.drop_succ_cons]; exact ih h j

/-- A successful search returns the match at the leftmost matching
position (`re.search` semantics). -/
theorem searchDecl_some_least {l : List Char} {name : String}
    (h : searchDecl l = some name) :
    ∃ i, matchAt (l.drop i) = some name ∧ ∀ j < i, matchAt (l.drop j) = none := by
  induction l with
  | nil => simp [searchDecl] at h
  | cons c cs ih =>
    unfold searchDecl at h
    cases hm : matchAt (c :: cs) with
    | some n =>
      rw [hm] at h
      simp only [Option.some.injEq] at h
      subst h
      exact ⟨0, hm, fun j hj => absurd hj (by omega)⟩
    | none =>
      rw [hm] at h
      obtain ⟨i, h1, h2⟩ := ih h
      refine ⟨i + 1, by simpa [List.drop_succ_cons] using h1, ?_⟩
      intro j hj
      cases j with
      | zero => simpa using hm
      | succ k => rw [List.drop_succ_cons]; exact h2 k (by omega)

/-- When extraction succeeds, the returned identifier is the one of the
leftmost scene class declaration in the source. -/
theorem extract_ok_first {code : String} {name : String}
    (h : extract_class_name code = Except.ok name) :
    ∃ i, DeclAt name (code.data.drop i) ∧
      ∀ j < i, ∀ m, ¬ DeclAt m (code.data.drop j) := by
  unfold extract_class_name at h
  cases hs : searchDecl code.data with
  | none => rw [hs] at h; simp at h
  | some n =>
    rw [hs] at h
    simp only [Except.ok.injEq] at h
    subst h
    obtain ⟨i, h1, h2⟩ := searchDecl_some_least hs
    refine ⟨i, declAt_of_matchAt h1, ?_⟩
    intro j hj m hm
    have := matchAt_of_declAt hm
    rw [h2 j hj] at this
    exact absurd this (by simp)

/-- Extraction fails (with the source's `ValueError` message) exactly when
the source contains no scene class declaration. -/
theorem extract_error_iff (code : String) :
    extract_class_name code =
        Except.error "Could not extract class name from Manim code." ↔
      ¬ HasDecl code := by
  constructor
  · intro h hdecl
    obtain ⟨i, name, hd⟩ := hdecl
    unfold extract_class_name at h
    cases hs : searchDecl code.data with
    | some n => rw [hs] at h; exact absurd h (by simp)
    | none =>
      have := searchDecl_none hs i
      rw [matchAt_of_declAt hd] at this
      exact absurd this (by simp)
  · intro hdecl
    unfold extract_class_name
    cases hs : searchDecl code.data with
    | none => rfl
    | some n =>
      obtain ⟨i, h1, _⟩ := searchDecl_some_least hs
      exact absurd ⟨i, n, declAt_of_matchAt h1⟩ hdecl

/-- A successfully extracted name is a non-empty identifier. -/
theorem extract_ok_shape {code name : String}
    (h : extract_class_name code = Except.ok name) :
    name.data ≠ [] ∧ AllWord name.data := by
  obtain ⟨i, hd, _⟩ := extract_ok_first h
  obtain ⟨_, _, _, _, _, _, _, _, _, _, _, _, h7, h8, _⟩ := hd
  exact ⟨h7, h8⟩

/-! ### Retry-loop lemmas -/

/-- First render attempt succeeds: the loop stops after one render, no fix. -/
theorem runChapterLoop_succ0 {env : Env} {ci : Nat} {code p : String}
    {tr : ChapterTrace} (h : attemptResult env ci 0 code = Except.ok p) :
    runChapterLoop env ci 2 0 code tr =
      (Except.ok (some p), { tr with renders := tr.renders + 1 }) := by
  unfold runChapterLoop
  simp [h]

/-- First render fails and the fixer itself fails: the exception escapes
the loop after one render and one fix invocation. -/
theorem runChapterLoop_fixFail {env : Env} {ci : Nat} {code : String}
    {e : PyError} {m : String} {tr : ChapterTrace}
    (h0 : attemptResult env ci 0 code = Except.error e)
    (hf : env.fix (errMsg e) code = Except.error m) :
    runChapterLoop env ci 2 0 code tr =
      (Except.error (PyError.agentError m),
       ⟨tr.renders + 1, tr.fixes + 1, tr.fixArgs ++ [(errMsg e, code)]⟩) := by
  unfold runChapterLoop
  simp [h0, fix_manim_code, hf]

/-- First render fails, the fix succeeds, the second render succeeds. -/
theorem runChapterLoop_fixThenOk {env : Env} {ci : Nat} {code c1 p : String}
    {e : PyError} {tr : ChapterTrace}
    (h0 : attemptResult env ci 0 code = Except.error e)
    (hf : env.fix (errMsg e) code = Except.ok c1)
    (h1 : attemptResult env ci 1 c1 = Except.ok p) :
    runChapterLoop env ci 2 0 code tr =
      (Except.ok (some p),
       ⟨tr.renders + 1 + 1, tr.fixes + 1, tr.fixArgs ++ [(errMsg e, code)]⟩) := by
  simp [runChapterLoop, h0, fix_manim_code, hf, h1]

/-- Both renders fail: two render attempts, one fix, then the chapter is
given up (skipped by the caller). -/
theorem runChapterLoop_failTwice {env : Env} {ci : Nat} {code c1 : String}
    {e e1 : PyError} {tr : ChapterTrace}
    (h0 : attemptResult env ci 0 code = Except.error e)
    (hf : env.fix (errMsg e) code = Except.ok c1)
    (h1 : attemptResult env ci 1 c1 = Except.error e1) :
    runChapterLoop env ci 2 0 code tr =
      (Except.ok none,
       ⟨tr.renders + 1 + 1, tr.fixes + 1, tr.fixArgs ++ [(errMsg e, code)]⟩) := by
  simp [runChapterLoop, h0, fix_manim_code, hf, h1]

/-- When the fixer backend never fails, the loop never lets an exception
escape. -/
theorem runChapterLoop_ok_of_fix (env : Env) (ci : Nat)
    (hfix : ∀ e c, ∃ s, env.fix e c = Except.ok s) :
    ∀ fuel attempts code tr, ∃ r tr2,
      runChapterLoop env ci fuel attempts code tr = (Except.ok r, tr2) := by
  intro fuel
  induction fuel with
  | zero => intro attempts code tr; exact ⟨none, tr, rfl⟩
  | succ n ih =>
    intro attempts code tr
    by_cases ha : attempts < 2
    · cases hr : attemptResult env ci attempts code with
      | ok p =>
        refine ⟨some p, { tr with renders := tr.renders + 1 }, ?_⟩
        unfold runChapterLoop
        simp [ha, hr]
      | error e =>
        by_cases h0 : attempts = 0
        · subst h0
          obtain ⟨s, hs⟩ := hfix (errMsg e) code
          obtain ⟨r, tr2, hrec⟩ := ih 1 s
            ⟨tr.renders + 1, tr.fixes + 1, tr.fixArgs ++ [(errMsg e, code)]⟩
          refine ⟨r, tr2, ?_⟩
          unfold runChapterLoop
          simp [ha, hr, fix_manim_code, hs, hrec]
        · obtain ⟨r, tr2, hrec⟩ := ih (attempts + 1) code
            ⟨tr.renders + 1, tr.fixes, tr.fixArgs⟩
          refine ⟨r, tr2, ?_⟩
          unfold runChapterLoop
          simp [ha, hr, h0, hrec]
    · refine ⟨none, tr, ?_⟩
      unfold runChapterLoop
      simp [ha]

/-- When generation and fixing never fail, the whole chapter loop
completes without an escaping exception. -/
theorem processChapters_ok_of (env : Env)
    (hgen : ∀ i c, ∃ s, env.genCode i c = Except.ok s)
    (hfix : ∀ e c, ∃ s, env.fix e c = Except.ok s) :
    ∀ chs i, ∃ files trs,
      processChapters env chs i = Except.ok (files, trs) := by
  intro chs
  induction chs with
  | nil => intro i; exact ⟨[], [], rfl⟩
  | cons c rest ih =>
    intro i
    obtain ⟨s, hs⟩ := hgen i c
    obtain ⟨r, tr2, hr⟩ := runChapterLoop_ok_of_fix env i hfix 2 0 s ChapterTrace.init
    have hco : chapterOutcome env i c = (Except.ok r, tr2) := by
      unfold chapterOutcome generate_manim_code
      rw [hs]
      exact hr
    obtain ⟨files, trs, hrest⟩ := ih (i + 1)
    unfold processChapters
    rw [hco, hrest]
    cases r with
    | some p => exact ⟨p :: files, tr2 :: trs, rfl⟩
    | none => exact ⟨files, tr2 :: trs, rfl⟩

/-- A chapter whose processing raises aborts the whole run with that
exception. -/
theorem processChapters_error_head {env : Env} {c : ChapterDescription}
    {rest : List ChapterDescription} {i : Nat} {e : PyError} {tr : ChapterTrace}
    (h : chapterOutcome env i c = (Except.error e, tr)) :
    processChapters env (c :: rest) i = Except.error e := by
  unfold processChapters
  rw [h]

/-- The collected clip list is exactly the per-chapter clips in original
chapter order: chapters are processed independently and a failed chapter
is omitted, never reordered. -/
theorem processChapters_files (env : Env) :
    ∀ (chs : List ChapterDescription) (i : Nat) files trs,
      processChapters env chs i = Except.ok (files, trs) →
      files = (List.enumFrom i chs).filterMap (fun p => chapterClip env p.1 p.2) := by
  intro chs
  induction chs with
  | nil =>
    intro i files trs h
    simp only [processChapters, Except.ok.injEq, Prod.mk.injEq] at h
    simp [h.1]
  | cons c rest ih =>
    intro i files trs h
    unfold processChapters at h
    rcases hco : chapterOutcome env i c with ⟨res, tr⟩
    rw [hco] at h
    cases res with
    | error e => simp at h
    | ok r =>
      cases hrest : processChapters env rest (i + 1) with
      | error e => rw [hrest] at h; simp at h
      | ok pr =>
        rcases pr with ⟨files2, trs2⟩
        rw [hrest] at h
        simp only [Except.ok.injEq, Prod.mk.injEq] at h
        have hfiles2 := ih (i + 1) files2 trs2 hrest
        cases r with
        | some p =>
          have hclip : chapterClip env i c = some p := by
            unfold chapterClip; rw [hco]
          rw [← h.1]
          simp only [List.enumFrom_cons, List.filterMap_cons, hclip]
          rw [← hfiles2]
        | none =>
          have hclip : chapterClip env i c = none := by
            unfold chapterClip; rw [hco]
          rw [← h.1]
          simp only [List.enumFrom_cons, List.filterMap_cons, hclip]
          exact hfiles2

/-! ### Assembly lemmas -/

/-- When every open succeeds, all candidate clips are opened, in order. -/
theorem openClips_all_ok {o : String → Except String Unit}
    (h : ∀ p, o p = Except.ok ()) :
    ∀ l, openClips o l = (Except.ok l, l) := by
  intro l
  induction l with
  | nil => rfl
  | cons p ps ih =>
    unfold openClips
    rw [h p, ih]

/-- Clips are opened in input order without reordering: the opened list is
always an order-preserving subselection of the input. -/
theorem openClips_opened_sublist (o : String → Except String Unit) :
    ∀ l, ((openClips o l).2).Sublist l := by
  intro l
  induction l with
  | nil => simp [openClips]
  | cons p ps ih =>
    unfold openClips
    cases ho : o p with
    | error m => exact List.nil_sublist _
    | ok u =>
      rcases hr : openClips o ps with ⟨res, opened⟩
      rw [hr] at ih
      cases res with
      | error m => exact ih.cons₂ p
      | ok l2 => exact ih.cons₂ p

/-- The list of clips the assembler opens is an order-preserving
subselection of the clip-path list it was handed. -/
theorem assembleStep_opened_sublist (env : Env) (files : List String) :
    ((assembleStep env files).2.1.opened).Sublist files := by
  have hsub : ((openClips env.openClip (files.filter env.existsAtAssembly)).2).Sublist
      files :=
    (openClips_opened_sublist env.openClip _).trans (List.filter_sublist files)
  unfold assembleStep
  cases files with
  | nil => simp
  | cons f fs =>
    rcases ho : openClips env.openClip ((f :: fs).filter env.existsAtAssembly)
      with ⟨res, opened⟩
    rw [ho] at hsub
    dsimp only
    rw [ho]
    cases res with
    | error m => simpa using hsub
    | ok clips =>
      cases clips with
      | nil => simpa using hsub
      | cons c cs =>
        cases hw : env.write with
        | error m => simpa using hsub
        | ok u => simpa using hsub

/-- `assemble` on an empty clip list: the normal empty-result case. -/
theorem assembleStep_nil (env : Env) :
    assembleStep env [] = (none, ⟨[], [], false, false⟩, Msg.noChapters) := rfl

/-- Successful assembly: the filtered clips are opened, written, and all
closed; the result is the constant final path. -/
theorem assembleStep_write_ok {env : Env} {files : List String}
    (hopen : ∀ p, env.openClip p = Except.ok ())
    (hw : env.write = Except.ok ())
    (hne : files.filter env.existsAtAssembly ≠ []) :
    assembleStep env files =
      (some "final_video.mp4",
       ⟨files.filter env.existsAtAssembly, files.filter env.existsAtAssembly,
        true, true⟩, Msg.successMsg) := by
  cases files with
  | nil => exact absurd rfl hne
  | cons f fs =>
    unfold assembleStep
    dsimp only
    rw [openClips_all_ok hopen]
    cases hc : (f :: fs).filter env.existsAtAssembly with
    | nil => exact absurd hc hne
    | cons c cs => rw [hw]

/-- Failing write: the clips were opened but none is closed, and the
reported message is the combine-error, not the empty-result message. -/
theorem assembleStep_write_error {env : Env} {files : List String} {m : String}
    (hopen : ∀ p, env.openClip p = Except.ok ())
    (hw : env.write = Except.error m)
    (hne : files.filter env.existsAtAssembly ≠ []) :
    assembleStep env files =
      (none, ⟨files.filter env.existsAtAssembly, [], false, false⟩,
       Msg.combineError m) := by
  cases files with
  | nil => exact absurd rfl hne
  | cons f fs =>
    unfold assembleStep
    dsimp only
    rw [openClips_all_ok hopen]
    cases hc : (f :: fs).filter env.existsAtAssembly with
    | nil => exact absurd hc hne
    | cons c cs => rw [hw]

/-- All collected paths filtered out on re-check: the no-clips message. -/
theorem assembleStep_noClips {env : Env} {files : List String}
    (hne : files ≠ [])
    (hf : files.filter env.existsAtAssembly = []) :
    assembleStep env files =
      (none, ⟨[], [], false, false⟩, Msg.noClips) := by
  cases files with
  | nil => exact absurd rfl hne
  | cons f fs =>
    unfold assembleStep
    dsimp only
    rw [hf]
    rfl

/-- Every path the assembler can return is the constant final path. -/
theorem assembleStep_eq_some {env : Env} {files : List String} {p : String}
    (h : (assembleStep env files).1 = some p) : p = "final_video.mp4" := by
  unfold assembleStep at h
  cases files with
  | nil => simp at h
  | cons f fs =>
    rcases ho : openClips env.openClip ((f :: fs).filter env.existsAtAssembly)
      with ⟨res, opened⟩
    dsimp only at h
    rw [ho] at h
    cases res with
    | error m => simp at h
    | ok clips =>
      cases clips with
      | nil => simp at h
      | cons c cs =>
        cases hw : env.write with
        | error m => rw [hw] at h; simp at h
        | ok u =>
          rw [hw] at h
          simp only [Option.some.injEq] at h
          exact h.symm

/-! ### Run-level lemmas -/

/-- The run's result once the outline and the chapter loop completed. -/
theorem generate_video_eq {env : Env} {o : VideoOutline} {files : List String}
    {trs : List ChapterTrace} {res : Option String} {asm : AsmTrace} {msg : Msg}
    (ho : env.outline = Except.ok o)
    (hp : processChapters env o.chapters 0 = Except.ok (files, trs))
    (ha : assembleStep env files = (res, asm, msg)) :
    generate_video env = (Except.ok res, ⟨files, trs, asm, msg⟩) := by
  unfold generate_video generate_video_outline
  rw [ho]
  dsimp only
  rw [hp]
  dsimp only
  rw [ha]

/-- An exception escaping the chapter loop escapes `generate_video`. -/
theorem generate_video_process_error {env : Env} {o : VideoOutline} {e : PyError}
    (ho : env.outline = Except.ok o)
    (hp : processChapters env o.chapters 0 = Except.error e) :
    (generate_video env).1 = Except.error e := by
  unfold generate_video generate_video_outline
  rw [ho]
  dsimp only
  rw [hp]

/-- When outline, generation and fixing succeed, `generate_video` returns
a value: render-attempt errors are all caught inside the loop. -/
theorem generate_video_total {env : Env}
    (ho : ∃ o, env.outline = Except.ok o)
    (hgen : ∀ i c, ∃ s, env.genCode i c = Except.ok s)
    (hfix : ∀ e c, ∃ s, env.fix e c = Except.ok s) :
    ∃ r tr, generate_video env = (Except.ok r, tr) := by
  obtain ⟨o, ho⟩ := ho
  obtain ⟨files, trs, hp⟩ := processChapters_ok_of env hgen hfix o.chapters 0
  rcases ha : assembleStep env files with ⟨res, asm, msg⟩
  exact ⟨res, ⟨files, trs, asm, msg⟩, generate_video_eq ho hp ha⟩

/-- Every final path `generate_video` can return is the constant
`final_video.mp4`. -/
theorem generate_video_some_const {env : Env} {p : String}
    (h : (generate_video env).1 = Except.ok (some p)) :
    p = "final_video.mp4" := by
  unfold generate_video generate_video_outline at h
  cases ho : env.outline with
  | error m => rw [ho] at h; simp at h
  | ok o =>
    rw [ho] at h
    dsimp only at h
    cases hp : processChapters env o.chapters 0 with
    | error e => rw [hp] at h; simp at h
    | ok pr =>
      rcases pr with ⟨files, trs⟩
      rw [hp] at h
      dsimp only at h
      simp only [Except.ok.injEq] at h
      exact @assembleStep_eq_some env files p h

/-! ### Claim theorems -/

/-- C1 counterexample: with a one-chapter outline and a scene-code
generation backend that fails, the exception escapes `generate_video`
instead of being converted into a chapter skip — refuting the claim that
chapter-scoped errors never escape to the caller and that the run
continues to the next chapter. -/
theorem codegen_error_escapes_cex :
    (generate_video envGenFail).1 =
      Except.error (PyError.agentError "backend down") := by decide

/-- C1 (amended): only render-attempt errors are chapter-scoped.  (1) When
the outline, scene-code generation and code fixing all succeed, every
render-attempt exception is caught and `generate_video` returns a result.
(2) A scene-code generation failure escapes `generate_video` as an
exception.  (3) A code-fix failure escapes `generate_video` as an
exception; neither is converted into a chapter skip. -/
theorem chapter_error_propagation_amended :
    (∀ env : Env, (∃ o, env.outline = Except.ok o) →
      (∀ i c, ∃ s, env.genCode i c = Except.ok s) →
      (∀ e c, ∃ s, env.fix e c = Except.ok s) →
      ∃ r tr, generate_video env = (Except.ok r, tr)) ∧
    (∀ (env : Env) (o : VideoOutline) (c : ChapterDescription)
        (rest : List ChapterDescription) (m : String),
      env.outline = Except.ok o → o.chapters = c :: rest →
      env.genCode 0 c = Except.error m →
      (generate_video env).1 = Except.error (PyError.agentError m)) ∧
    (∀ (env : Env) (o : VideoOutline) (c : ChapterDescription)
        (rest : List ChapterDescription) (code : String) (e : PyError)
        (m : String),
      env.outline = Except.ok o → o.chapters = c :: rest →
      env.genCode 0 c = Except.ok code →
      attemptResult env 0 0 code = Except.error e →
      env.fix (errMsg e) code = Except.error m →
      (generate_video env).1 = Except.error (PyError.agentError m)) := by
  refine ⟨fun env ho hgen hfix => generate_video_total ho hgen hfix, ?_, ?_⟩
  · intro env o c rest m ho hch hg
    have hco : chapterOutcome env 0 c =
        (Except.error (PyError.agentError m), ChapterTrace.init) := by
      unfold chapterOutcome generate_manim_code
      rw [hg]
    have hp : processChapters env o.chapters 0 =
        Except.error (PyError.agentError m) := by
      rw [hch]
      exact processChapters_error_head hco
    exact generate_video_process_error ho hp
  · intro env o c rest code e m ho hch hg hat hf
    have hco : chapterOutcome env 0 c = (Except.error (PyError.agentError m),
        ⟨ChapterTrace.init.renders + 1, ChapterTrace.init.fixes + 1,
         ChapterTrace.init.fixArgs ++ [(errMsg e, code)]⟩) := by
      unfold chapterOutcome generate_manim_code
      rw [hg]
      exact runChapterLoop_fixFail hat hf
    have hp : processChapters env o.chapters 0 =
        Except.error (PyError.agentError m) := by
      rw [hch]
      exact processChapters_error_head hco
    exact generate_video_process_error ho hp

/-- C1 witness: the amended theorem's no-escape part at the concrete
fully-successful environment. -/
theorem chapter_error_propagation_witness :
    ∃ r tr, generate_video envOK = (Except.ok r, tr) :=
  chapter_error_propagation_amended.1 envOK ⟨outline1, rfl⟩
    (fun _ _ => ⟨"class FooScene(Scene):", rfl⟩) (fun _ c => ⟨c, rfl⟩)

/-- C2 counterexample: a zero-chapter outline from the backend is returned
unchanged by `generate_video_outline` — no outline-generation error is
raised and the result does not have between 1 and 3 chapters, refuting the
claimed structural validation. -/
theorem outline_validation_cex :
    generate_video_outline (Except.ok zeroOutline) = Except.ok zeroOutline ∧
    zeroOutline.chapters.length = 0 := ⟨rfl, rfl⟩

/-- C2 (amended): `generate_video_outline` forwards the backend result
without validating the chapter count; a backend exception propagates; a
zero-chapter outline simply yields a run with nothing to render (no error),
ending with the no-chapters message. -/
theorem outline_forwarding_amended :
    (∀ o, generate_video_outline (Except.ok o) = Except.ok o) ∧
    (∀ m, generate_video_outline (Except.error m) =
      Except.error (PyError.agentError m)) ∧
    (generate_video envZero).1 = Except.ok none ∧
    (generate_video envZero).2.message = Msg.noChapters :=
  ⟨fun _ => rfl, fun _ => rfl, by decide, by decide⟩

/-- C3: retry bounds.  (1) Per chapter at most 2 render attempts and at
most 1 fix invocation are made.  (2) A fix is invoked only after a failed
first render, and receives exactly that failure's error detail together
with the failing code.  (3) An always-failing renderer (with a working
fixer) yields exactly 2 render attempts, exactly 1 fix, and a skipped
chapter.  (4) A renderer failing once and then succeeding yields success
after exactly 1 fix invocation. -/
theorem retry_bound_invariant :
    (∀ (env : Env) (ci : Nat) (code : String),
      (runChapterLoop env ci 2 0 code ChapterTrace.init).2.renders ≤ 2 ∧
      (runChapterLoop env ci 2 0 code ChapterTrace.init).2.fixes ≤ 1) ∧
    (∀ (env : Env) (ci : Nat) (code : String),
      (runChapterLoop env ci 2 0 code ChapterTrace.init).2.fixes = 1 →
      ∃ e, attemptResult env ci 0 code = Except.error e ∧
        (runChapterLoop env ci 2 0 code ChapterTrace.init).2.fixArgs =
          [(errMsg e, code)]) ∧
    (∀ (env : Env) (ci : Nat) (code : String),
      (∀ a c, ∃ e, attemptResult env ci a c = Except.error e) →
      (∀ e c, ∃ s, env.fix e c = Except.ok s) →
      ∃ tr, runChapterLoop env ci 2 0 code ChapterTrace.init =
          (Except.ok none, tr) ∧ tr.renders = 2 ∧ tr.fixes = 1) ∧
    (∀ (env : Env) (ci : Nat) (code c1 p : String) (e : PyError),
      attemptResult env ci 0 code = Except.error e →
      env.fix (errMsg e) code = Except.ok c1 →
      attemptResult env ci 1 c1 = Except.ok p →
      runChapterLoop env ci 2 0 code ChapterTrace.init =
        (Except.ok (some p), ⟨2, 1, [(errMsg e, code)]⟩)) := by
  refine ⟨?_, ?_, ?_, ?_⟩
  · intro env ci code
    cases h0 : attemptResult env ci 0 code with
    | ok p =>
      rw [runChapterLoop_succ0 h0]
      exact ⟨by simp [ChapterTrace.init], by simp [ChapterTrace.init]⟩
    | error e =>
      cases hf : env.fix (errMsg e) code with
      | error m =>
        rw [runChapterLoop_fixFail h0 hf]
        exact ⟨by simp [ChapterTrace.init], by simp [ChapterTrace.init]⟩
      | ok c1 =>
        cases h1 : attemptResult env ci 1 c1 with
        | ok p =>
          rw [runChapterLoop_fixThenOk h0 hf h1]
          exact ⟨by simp [ChapterTrace.init], by simp [ChapterTrace.init]⟩
        | error e1 =>
          rw [runChapterLoop_failTwice h0 hf h1]
          exact ⟨by simp [ChapterTrace.init], by simp [ChapterTrace.init]⟩
  · intro env ci code hfix1
    cases h0 : attemptResult env ci 0 code with
    | ok p =>
      rw [runChapterLoop_succ0 h0] at hfix1
      simp [ChapterTrace.init] at hfix1
    | error e =>
      refine ⟨e, rfl, ?_⟩
      cases hf : env.fix (errMsg e) code with
      | error m =>
        rw [runChapterLoop_fixFail h0 hf]
        simp [ChapterTrace.init]
      | ok c1 =>
        cases h1 : attemptResult env ci 1 c1 with
        | ok p =>
          rw [runChapterLoop_fixThenOk h0 hf h1]
          simp [ChapterTrace.init]
        | error e1 =>
          rw [runChapterLoop_failTwice h0 hf h1]
          simp [ChapterTrace.init]
  · intro env ci code hfail hfix
    obtain ⟨e0, h0⟩ := hfail 0 code
    obtain ⟨c1, hf⟩ := hfix (errMsg e0) code
    obtain ⟨e1, h1⟩ := hfail 1 c1
    refine ⟨_, runChapterLoop_failTwice h0 hf h1, ?_, ?_⟩ <;>
      simp [ChapterTrace.init]
  · intro env ci code c1 p e h0 hf h1
    have := @runChapterLoop_fixThenOk env ci code c1 p e ChapterTrace.init h0 hf h1
    simpa [ChapterTrace.init] using this

/-- C3 witness: the always-failing-renderer bound at a concrete
environment whose subprocess always times out. -/
theorem retry_bound_invariant_witness :
    ∃ tr, runChapterLoop envTimeoutAll 0 2 0 "x" ChapterTrace.init =
        (Except.ok none, tr) ∧ tr.renders = 2 ∧ tr.fixes = 1 :=
  retry_bound_invariant.2.2.1 envTimeoutAll 0 "x"
    (fun _ _ => ⟨PyError.timeoutExpired, rfl⟩) (fun _ c => ⟨c, rfl⟩)

/-- C4 counterexample: with one existing clip and a failing write step,
the clip is opened but never closed — refuting the claim that every opened
clip resource is released whether or not writing succeeds. -/
theorem assembly_release_cex :
    (assembleStep envWriteFail ["a.mp4"]).2.1.opened = ["a.mp4"] ∧
    (assembleStep envWriteFail ["a.mp4"]).2.1.closed = [] ∧
    (assembleStep envWriteFail ["a.mp4"]).2.2 = Msg.combineError "disk full" := by
  decide

/-- C4 (amended): the assembler filters out paths that no longer exist and
opens each remaining clip; on a successful write it returns the final path
and closes every opened clip; on a failing write it closes nothing, and
the failure is reported with a combine-error message distinct from the
no-clips message of the normal empty-result case. -/
theorem assembly_behaviour_amended :
    (∀ (env : Env) (files : List String),
      (∀ p, env.openClip p = Except.ok ()) →
      (assembleStep env files).2.1.opened = files.filter env.existsAtAssembly) ∧
    (∀ (env : Env) (files : List String),
      (∀ p, env.openClip p = Except.ok ()) → env.write = Except.ok () →
      files.filter env.existsAtAssembly ≠ [] →
      (assembleStep env files).1 = some "final_video.mp4" ∧
      (assembleStep env files).2.1.closed = files.filter env.existsAtAssembly ∧
      (assembleStep env files).2.1.finalClosed = true) ∧
    (∀ (env : Env) (files : List String) (m : String),
      (∀ p, env.openClip p = Except.ok ()) → env.write = Except.error m →
      files.filter env.existsAtAssembly ≠ [] →
      (assembleStep env files).1 = none ∧
      (assembleStep env files).2.1.closed = [] ∧
      (assembleStep env files).2.2 = Msg.combineError m) ∧
    (∀ (env : Env) (files : List String), files ≠ [] →
      files.filter env.existsAtAssembly = [] →
      (assembleStep env files).1 = none ∧
      (assembleStep env files).2.2 = Msg.noClips) ∧
    (∀ m, Msg.combineError m ≠ Msg.noClips) := by
  refine ⟨?_, ?_, ?_, ?_, fun m => by simp⟩
  · intro env files hopen
    cases files with
    | nil => rfl
    | cons f fs =>
      cases hw : env.write with
      | ok u =>
        cases hc : (f :: fs).filter env.existsAtAssembly with
        | nil => rw [assembleStep_noClips (by simp) hc]
        | cons c cs =>
          rw [assembleStep_write_ok hopen hw (by rw [hc]; simp)]
          exact hc
      | error m =>
        cases hc : (f :: fs).filter env.existsAtAssembly with
        | nil => rw [assembleStep_noClips (by simp) hc]
        | cons c cs =>
          rw [assembleStep_write_error hopen hw (by rw [hc]; simp)]
          exact hc
  · intro env files hopen hw hne
    rw [assembleStep_write_ok hopen hw hne]
    exact ⟨rfl, rfl, rfl⟩
  · intro env files m hopen hw hne
    rw [assembleStep_write_error hopen hw hne]
    exact ⟨rfl, rfl, rfl⟩
  · intro env files hne hf
    rw [assembleStep_noClips hne hf]
    exact ⟨rfl, rfl⟩

/-- C4 witness: the failing-write behaviour at a concrete two-clip input. -/
theorem assembly_behaviour_witness :
    (assembleStep envWriteFail ["a.mp4", "b.mp4"]).1 = none ∧
    (assembleStep envWriteFail ["a.mp4", "b.mp4"]).2.1.closed = [] ∧
    (assembleStep envWriteFail ["a.mp4", "b.mp4"]).2.2 =
      Msg.combineError "disk full" :=
  assembly_behaviour_amended.2.2.1 envWriteFail ["a.mp4", "b.mp4"] "disk full"
    (fun _ => rfl) rfl (by decide)

/-- C5: entry-point extraction.  (1) `"class FooScene(Scene):"` yields
`FooScene`.  (2) Every successful extraction returns the identifier of the
leftmost scene class declaration in the source.  (3) Extraction fails with
the `ValueError` message exactly when the source contains no such
declaration.  (4) That failure is chapter-scoped, not fatal: a run whose
generated code has no declaration completes normally with no video. -/
theorem entry_point_extraction_spec :
    (extract_class_name "class FooScene(Scene):" = Except.ok "FooScene") ∧
    (∀ code name, extract_class_name code = Except.ok name →
      ∃ i, DeclAt name (code.data.drop i) ∧
        ∀ j < i, ∀ m, ¬ DeclAt m (code.data.drop j)) ∧
    (∀ code, extract_class_name code =
        Except.error "Could not extract class name from Manim code." ↔
      ¬ HasDecl code) ∧
    (generate_video envNoDecl).1 = Except.ok none :=
  ⟨by decide, fun _ _ h => extract_ok_first h, extract_error_iff, by decide⟩

/-- C5 witness: the leftmost-declaration property instantiated at the
concrete input of the claim. -/
theorem entry_point_extraction_witness :
    ∃ i, DeclAt "FooScene" (("class FooScene(Scene):" : String).data.drop i) ∧
      ∀ j < i, ∀ m,
        ¬ DeclAt m (("class FooScene(Scene):" : String).data.drop j) :=
  entry_point_extraction_spec.2.1 "class FooScene(Scene):" "FooScene" (by decide)

/-- C6: each call of `create_video_from_code` creates exactly one
temporary file and deletes it on every exit path — success, non-zero exit,
timeout, missing interpreter, any other subprocess exception, and the
entry-point extraction failure path. -/
theorem temp_file_lifecycle (proc : ProcOutcome) (tname code : String) (n : Nat) :
    (create_video_from_code proc tname code n).2.tempCreated = 1 ∧
    (create_video_from_code proc tname code n).2.tempDeleted = 1 ∧
    (create_video_from_code proc tname code n).2.tempFinallyExists = false := by
  cases proc with
  | timeout => exact ⟨rfl, rfl, rfl⟩
  | fileNotFound => exact ⟨rfl, rfl, rfl⟩
  | otherError m => exact ⟨rfl, rfl, rfl⟩
  | completed rc out err =>
    by_cases h : rc = 0
    · subst h
      cases hx : extract_class_name code with
      | error m =>
        simp [create_video_from_code, runFinally, hx]
      | ok cn =>
        simp [create_video_from_code, runFinally, hx]
    · simp [create_video_from_code, runFinally, h]

/-- C7: the render call is bounded by the fixed 60-unit timeout; on
timeout the child process is killed and the temporary file deleted, the
call reports the timeout exception, and a run whose renders all time out
still completes normally (chapter-level failures, no hang, no run abort). -/
theorem render_timeout_contained :
    renderTimeout = 60 ∧
    (∀ (tname code : String) (n : Nat),
      create_video_from_code ProcOutcome.timeout tname code n =
        (Except.error PyError.timeoutExpired, ⟨1, 1, false, true⟩)) ∧
    (∀ env : Env, (∀ ci a, env.proc ci a = ProcOutcome.timeout) →
      (∃ o, env.outline = Except.ok o) →
      (∀ i c, ∃ s, env.genCode i c = Except.ok s) →
      (∀ e c, ∃ s, env.fix e c = Except.ok s) →
      ∃ tr, generate_video env = (Except.ok none, tr)) := by
  refine ⟨rfl, fun _ _ _ => rfl, ?_⟩
  intro env hproc ho hgen hfix
  obtain ⟨o, ho⟩ := ho
  have hfail : ∀ ci a c, attemptResult env ci a c =
      Except.error PyError.timeoutExpired := by
    intro ci a c
    unfold attemptResult
    rw [hproc ci a]
    rfl
  have hchaps : ∀ chs i, ∃ trs,
      processChapters env chs i = Except.ok ([], trs) := by
    intro chs
    induction chs with
    | nil => intro i; exact ⟨[], rfl⟩
    | cons c rest ih =>
      intro i
      obtain ⟨s, hs⟩ := hgen i c
      obtain ⟨c1, hf⟩ := hfix (errMsg PyError.timeoutExpired) s
      have hloop := @runChapterLoop_failTwice env i s c1 PyError.timeoutExpired
        PyError.timeoutExpired ChapterTrace.init (hfail i 0 s) hf (hfail i 1 c1)
      have hco : chapterOutcome env i c = (Except.ok none,
          ⟨ChapterTrace.init.renders + 1 + 1, ChapterTrace.init.fixes + 1,
           ChapterTrace.init.fixArgs ++ [(errMsg PyError.timeoutExpired, s)]⟩) := by
        unfold chapterOutcome generate_manim_code
        rw [hs]
        exact hloop
      obtain ⟨trs, hrest⟩ := ih (i + 1)
      refine ⟨⟨ChapterTrace.init.renders + 1 + 1, ChapterTrace.init.fixes + 1,
        ChapterTrace.init.fixArgs ++ [(errMsg PyError.timeoutExpired, s)]⟩ :: trs, ?_⟩
      unfold processChapters
      rw [hco, hrest]
  obtain ⟨trs, hp⟩ := hchaps o.chapters 0
  exact ⟨_, generate_video_eq ho hp (assembleStep_nil env)⟩

/-- C7 witness: the no-hang property at the concrete all-timeout
environment. -/
theorem render_timeout_witness :
    ∃ tr, generate_video envTimeoutAll = (Except.ok none, tr) :=
  render_timeout_contained.2.2 envTimeoutAll (fun _ _ => rfl) ⟨outline1, rfl⟩
    (fun _ _ => ⟨"class FooScene(Scene):", rfl⟩) (fun _ c => ⟨c, rfl⟩)

/-- C8: order preservation.  (1) The clip list handed to assembly is the
per-chapter success paths in original outline order (failed chapters
omitted, never reordered).  (2) The clips the assembler opens form an
order-preserving subselection of that list.  (3)+(4) In the concrete
A, B, C scenario with B failing, the assembled inputs are A's clip then
C's clip, in that order, and they are opened in that order. -/
theorem order_preservation_spec :
    (∀ (env : Env) (chs : List ChapterDescription) (i : Nat)
        (files : List String) (trs : List ChapterTrace),
      processChapters env chs i = Except.ok (files, trs) →
      files = (List.enumFrom i chs).filterMap (fun p => chapterClip env p.1 p.2)) ∧
    (∀ (env : Env) (files : List String),
      ((assembleStep env files).2.1.opened).Sublist files) ∧
    ((generate_video envABC).2.videoFiles =
      ["./media/videos/temp/480p15/AScene.mp4",
       "./media/videos/temp/480p15/CScene.mp4"]) ∧
    ((generate_video envABC).2.asm.opened =
      ["./media/videos/temp/480p15/AScene.mp4",
       "./media/videos/temp/480p15/CScene.mp4"]) :=
  ⟨processChapters_files, assembleStep_opened_sublist, by decide, by decide⟩

/-- C8 witness: the order-preservation equation instantiated on the
concrete A, B, C run. -/
theorem order_preservation_witness :
    ["./media/videos/temp/480p15/AScene.mp4",
     "./media/videos/temp/480p15/CScene.mp4"] =
      (List.enumFrom 0 chaptersABC).filterMap
        (fun p => chapterClip envABC p.1 p.2) :=
  order_preservation_spec.1 envABC chaptersABC 0
    ["./media/videos/temp/480p15/AScene.mp4",
     "./media/videos/temp/480p15/CScene.mp4"]
    [⟨1, 0, []⟩,
     ⟨2, 1, [("Command timed out after 60 seconds", "class BScene(Scene):")]⟩,
     ⟨1, 0, []⟩]
    (by decide)

/-- C9: when the subprocess exits 0, the returned artifact path is exactly
`./media/videos/temp/480p15/<ClassName>.mp4` for the class name extracted
from the source text, and the result does not depend on the random
temporary-file name the tool was invoked on. -/
theorem render_path_convention :
    (∀ (out err tname code name : String) (n : Nat),
      extract_class_name code = Except.ok name →
      (create_video_from_code (ProcOutcome.completed 0 out err) tname code n).1 =
        Except.ok ("./media/videos/temp/480p15/" ++ name ++ ".mp4")) ∧
    (∀ (out err t1 t2 code : String) (n : Nat),
      (create_video_from_code (ProcOutcome.completed 0 out err) t1 code n).1 =
      (create_video_from_code (ProcOutcome.completed 0 out err) t2 code n).1) := by
  constructor
  · intro out err tname code name n h
    obtain ⟨hne, hword⟩ := extract_ok_shape h
    have hhead : ¬ (name ++ ".mp4").data.head? = some '/' := by
      obtain ⟨c0, ct, hc⟩ := List.exists_cons_of_ne_nil hne
      rw [String.data_append, hc]
      simp only [List.cons_append, List.head?_cons, Option.some.injEq]
      intro hcc
      have hw := hword c0 (by rw [hc]; simp)
      rw [hcc] at hw
      exact absurd hw (by decide)
    unfold create_video_from_code
    dsimp only
    rw [if_neg (by decide : ¬ (0 : Int) ≠ 0), h]
    dsimp only
    unfold os_path_join
    rw [if_neg hhead, if_pos (by decide), ← String.append_assoc]
  · intro out err t1 t2 code n
    rfl

/-- C9 witness: the path convention at the concrete `FooScene` source. -/
theorem render_path_witness :
    (create_video_from_code (ProcOutcome.completed 0 "" "") "/tmp/x.py"
        "class FooScene(Scene):" 1).1 =
      Except.ok ("./media/videos/temp/480p15/" ++ "FooScene" ++ ".mp4") :=
  render_path_convention.1 "" "" "/tmp/x.py" "class FooScene(Scene):"
    "FooScene" 1 (by decide)

/-- C10: whenever `generate_video` produces a final video, the returned
path is the fixed constant `final_video.mp4` — every successful run writes
to this same path. -/
theorem final_video_constant :
    ∀ (env : Env) (p : String),
      (generate_video env).1 = Except.ok (some p) → p = "final_video.mp4" :=
  fun _ _ h => generate_video_some_const h

/-- C10 witness: the constant path at the concrete fully-successful run. -/
theorem final_video_constant_witness :
    (generate_video envOK).1 = Except.ok (some "final_video.mp4") ∧
    "final_video.mp4" = "final_video.mp4" :=
  ⟨by decide, final_video_constant envOK "final_video.mp4" (by decide)⟩

end App
